import Mathlib

/-!
Verification of the multi-agent chat hub (picoclaw `pkg/channels`) against its
natural-language specification.

The definitions below are a shallow embedding of the Go source:

* `Conversation`, `ConversationMessage`, `addMessage`, `incrementPending`,
  `decrementPending`, `closeConversation` embed the conversation manager
  (`conversation.go`): `AddMessage`, `IncrementPending`, `DecrementPending`
  and the per-object effect of `CloseConversation`.
* `ActorMailbox`, `mailboxSend`, `mailboxStop`, `ActorSystem`, `systemRoute`,
  `systemStopAll` embed the actor layer (`discord_actor.go`).  A Go buffered
  channel of capacity `cap` accepts a non-blocking send exactly when its
  length is below `cap`; a send on a closed channel and a `close` of a closed
  channel are runtime panics, modelled by the explicit `panicked` outcomes.
* `routeFromHuman`, `routeToAgent`, `handleAgentResponse` embed the
  `MessageRouter` methods.  Calls to `time.Now()` are modelled by an explicit
  `now : Nat` parameter supplied by the caller.
* `parseMentions` / `cleanMentions` embed the gateway's inbound mention
  handling built on the Go regexp `(?i)@(master|dev|qa|pm|ops)\b`
  (leftmost, non-overlapping scan; `\b` is RE2's ASCII word boundary).
  `parseMentionsFromResponse` / `cleanMentionsFromResponse` embed the
  substring-based reply-side handling in `multi_agent_handler.go`.
  The `(?i)` flag is RE2 simple case folding: for the letters occurring in
  the roster names this is the ASCII case pairs plus the single non-ASCII
  orbit member U+017F (long s, which folds with `s`); `foldMatch` models
  exactly that, while `\b` stays ASCII.
-/

/-- AgentType mirrors the Go `type AgentType string`. -/
abbrev AgentType := String

def AgentMaster : AgentType := "master"

def AgentDev : AgentType := "dev"

def AgentQA : AgentType := "qa"

def AgentPM : AgentType := "pm"

def AgentOps : AgentType := "ops"

/-- AllAgentTypes mirrors the Go roster `AllAgentTypes`. -/
def AllAgentTypes : List AgentType := [AgentMaster, AgentDev, AgentQA, AgentPM, AgentOps]

/-- ActorMessage mirrors the Go struct `ActorMessage`.  `fromAgent` is the
Go field `From` (empty string means human); `timestamp` models `time.Time`
as a `Nat`. -/
structure ActorMessage where
  id : String
  fromAgent : AgentType
  toAgent : AgentType
  content : String
  channelID : String
  replyTo : String
  timestamp : Nat
  metadata : List (String × String)
deriving DecidableEq, Repr

/-- ConversationState mirrors the Go `ConversationState` constants. -/
inductive ConversationState where
  | idle
  | active
  | processing
  | closed
deriving DecidableEq, Repr

/-- ConversationMessage mirrors the Go struct `ConversationMessage`. -/
structure ConversationMessage where
  id : String
  fromAgent : AgentType
  toAgents : List AgentType
  content : String
  timestamp : Nat
  isFromHuman : Bool
  metadata : List (String × String)
deriving DecidableEq, Repr

/-- Conversation mirrors the Go struct `Conversation`.  `pendingCount` is a
Go `int`, so it is modelled as `Int`; `activeAgents` models the Go
`map[AgentType]bool` as an insertion-ordered duplicate-free list. -/
structure Conversation where
  id : String
  channelID : String
  state : ConversationState
  pendingCount : Int
  messages : List ConversationMessage
  activeAgents : List AgentType
  createdAt : Nat
  lastActivity : Nat
deriving DecidableEq, Repr

/-- insertAgent models `ActiveAgents[a] = true` on the set-as-list. -/
def insertAgent (l : List AgentType) (a : AgentType) : List AgentType :=
  if l.contains a then l else l ++ [a]

/-- addMessage embeds `Conversation.AddMessage`: stamps the message with the
current time, appends it, refreshes `LastActivity`, promotes `Idle` to
`Active`, and records the sender (when not human) and all addressees in
`ActiveAgents`. -/
def addMessage (msg : ConversationMessage) (now : Nat) (c : Conversation) : Conversation :=
  let msg' := { msg with timestamp := now }
  let agents1 :=
    if !msg.isFromHuman && !(msg.fromAgent == "") then insertAgent c.activeAgents msg.fromAgent
    else c.activeAgents
  { c with
    messages := c.messages ++ [msg']
    lastActivity := now
    state := if c.state = ConversationState.idle then ConversationState.active else c.state
    activeAgents := msg.toAgents.foldl insertAgent agents1 }

/-- incrementPending embeds `Conversation.IncrementPending`: the counter is
incremented and the state set to `Processing` unconditionally. -/
def incrementPending (c : Conversation) : Conversation :=
  { c with
    pendingCount := c.pendingCount + 1
    state := ConversationState.processing }

/-- decrementPending embeds `Conversation.DecrementPending`: the counter is
decremented only when positive, and the state is set to `Active` whenever
the resulting counter is zero. -/
def decrementPending (c : Conversation) : Conversation :=
  let p := if 0 < c.pendingCount then c.pendingCount - 1 else c.pendingCount
  { c with
    pendingCount := p
    state := if p = 0 then ConversationState.active else c.state }

/-- closeConversation embeds the effect of
`ConversationManager.CloseConversation` on the conversation object itself:
the state is set to `Closed` (the counter and history are left untouched). -/
def closeConversation (c : Conversation) : Conversation :=
  { c with state := ConversationState.closed }

/-- mkConversation embeds the fresh conversation built by
`GetOrCreateConversation` for an unknown channel. -/
def mkConversation (channelID : String) (now : Nat) : Conversation :=
  { id := "conv_" ++ channelID ++ "_" ++ toString now
    channelID := channelID
    state := ConversationState.idle
    pendingCount := 0
    messages := []
    activeAgents := []
    createdAt := now
    lastActivity := now }

/-- ConvOp is one call on a conversation object.  Each constructor carries
the wall-clock time `now` at which the call happens; the source reads the
clock (`time.Now()`) only inside `AddMessage`. -/
inductive ConvOp where
  | add (msg : ConversationMessage) (now : Nat)
  | inc (now : Nat)
  | dec (now : Nat)
  | close (now : Nat)
deriving DecidableEq, Repr

/-- applyConvOp runs one operation on a conversation object. -/
def applyConvOp (c : Conversation) : ConvOp → Conversation
  | ConvOp.add msg now => addMessage msg now c
  | ConvOp.inc _ => incrementPending c
  | ConvOp.dec _ => decrementPending c
  | ConvOp.close _ => closeConversation c

/-- applyConvOps runs a sequence of operations left to right. -/
def applyConvOps (c : Conversation) (ops : List ConvOp) : Conversation :=
  ops.foldl applyConvOp c

/-- isCloseOp recognises the `close` operation. -/
def isCloseOp : ConvOp → Bool
  | ConvOp.close _ => true
  | _ => false

/-- convInvariant is the state/pending coupling of the specification:
`Processing ⇔ pending > 0`, `Idle ⇒ pending = 0`, and `pending ≥ 0`. -/
def convInvariant (c : Conversation) : Prop :=
  (c.state = ConversationState.processing ↔ 0 < c.pendingCount) ∧
    (c.state = ConversationState.idle → c.pendingCount = 0) ∧ 0 ≤ c.pendingCount

/-- ActorMailbox mirrors the Go struct `ActorMailbox`.  The buffered Go
channel is modelled by `queue` (FIFO list) plus `closed` (whether
`close(m.messages)` has run); `cancelled` models the context cancellation
done by `Stop`. -/
structure ActorMailbox where
  agent : AgentType
  queue : List ActorMessage
  capacity : Int
  cancelled : Bool
  closed : Bool
deriving DecidableEq, Repr

/-- newActorMailbox embeds `NewActorMailbox`: a non-positive capacity is
replaced by the default 100. -/
def newActorMailbox (agent : AgentType) (capacity : Int) : ActorMailbox :=
  { agent := agent
    queue := []
    capacity := if capacity ≤ 0 then 100 else capacity
    cancelled := false
    closed := false }

/-- SendOutcome is the result of `ActorMailbox.Send`.  `panicked` models the
Go runtime panic raised by a send on a closed channel (the `select` in
`Send` chooses the send case even when the channel is closed). -/
inductive SendOutcome where
  | ok (mb : ActorMailbox)
  | fullErr (e : String)
  | panicked
deriving DecidableEq, Repr

/-- mailboxSend embeds `ActorMailbox.Send`: a non-blocking offer on the
buffered channel succeeds exactly when the queue length is below the
capacity; on a closed channel it panics. -/
def mailboxSend (mb : ActorMailbox) (msg : ActorMessage) : SendOutcome :=
  if mb.closed then SendOutcome.panicked
  else if (mb.queue.length : Int) < mb.capacity then
    SendOutcome.ok { mb with queue := mb.queue ++ [msg] }
  else SendOutcome.fullErr ("mailbox full for agent " ++ mb.agent)

/-- StopOutcome is the result of `ActorMailbox.Stop`.  `panicked` models the
Go runtime panic raised by `close` of an already-closed channel. -/
inductive StopOutcome where
  | ok (mb : ActorMailbox)
  | panicked
deriving DecidableEq, Repr

/-- mailboxStop embeds `ActorMailbox.Stop`: it cancels the context and
closes the channel.  Closing an already-closed channel panics. -/
def mailboxStop (mb : ActorMailbox) : StopOutcome :=
  if mb.closed then StopOutcome.panicked
  else StopOutcome.ok { mb with cancelled := true, closed := true }

/-- ActorSystem mirrors the Go `ActorSystem` registry, modelling
`map[AgentType]*ActorMailbox` as an association list. -/
structure ActorSystem where
  mailboxes : List (AgentType × ActorMailbox)
deriving DecidableEq, Repr

/-- lookupMailbox embeds `ActorSystem.GetMailbox` / the registry read in
`Route`. -/
def lookupMailbox (s : ActorSystem) (a : AgentType) : Option ActorMailbox :=
  (s.mailboxes.find? (fun p => p.1 == a)).map Prod.snd

/-- updateMailbox writes back the new mailbox state after a successful
send (in Go the mailbox is mutated through its pointer). -/
def updateMailbox (s : ActorSystem) (a : AgentType) (mb : ActorMailbox) : ActorSystem :=
  ActorSystem.mk (s.mailboxes.map (fun p => if p.1 == a then (p.1, mb) else p))

/-- mailboxesOpen states that no registered mailbox has been stopped; it
holds for every running system (between `StartAll` and `StopAll`). -/
def mailboxesOpen (s : ActorSystem) : Bool :=
  s.mailboxes.all (fun p => !p.2.closed)

/-- RouteRes is the result of `ActorSystem.Route`. -/
inductive RouteRes where
  | delivered (s : ActorSystem)
  | err (e : String)
  | panicked
deriving DecidableEq, Repr

/-- systemRoute embeds `ActorSystem.Route`: unknown target is an error,
otherwise the message is offered to the target's mailbox. -/
def systemRoute (s : ActorSystem) (msg : ActorMessage) : RouteRes :=
  match lookupMailbox s msg.toAgent with
  | none => RouteRes.err ("agent " ++ msg.toAgent ++ " not registered")
  | some mb =>
    match mailboxSend mb msg with
    | SendOutcome.ok mb' => RouteRes.delivered (updateMailbox s msg.toAgent mb')
    | SendOutcome.fullErr e => RouteRes.err e
    | SendOutcome.panicked => RouteRes.panicked

/-- routeErrWould states the error condition of `Route` for a target:
the target is not registered or its mailbox is full. -/
def routeErrWould (s : ActorSystem) (a : AgentType) : Bool :=
  match lookupMailbox s a with
  | none => true
  | some mb => !((mb.queue.length : Int) < mb.capacity)

/-- stopAllAux stops every mailbox in order, propagating a panic as
`none` (as in `StopAll`'s loop). -/
def stopAllAux : List (AgentType × ActorMailbox) → Option (List (AgentType × ActorMailbox))
  | [] => some []
  | (a, mb) :: rest =>
    match mailboxStop mb with
    | StopOutcome.panicked => none
    | StopOutcome.ok mb' => (stopAllAux rest).map (fun l => (a, mb') :: l)

/-- systemStopAll embeds `ActorSystem.StopAll`. -/
def systemStopAll (s : ActorSystem) : Option ActorSystem :=
  (stopAllAux s.mailboxes).map ActorSystem.mk

/-- lookupConv embeds the registry read `cm.conversations[channelID]`. -/
def lookupConv : List (String × Conversation) → String → Option Conversation
  | [], _ => none
  | (k, v) :: rest, channelID => if k == channelID then some v else lookupConv rest channelID

/-- insertConv embeds the registry write `cm.conversations[channelID] = conv`
(replace when present, insert otherwise). -/
def insertConv : List (String × Conversation) → String → Conversation →
    List (String × Conversation)
  | [], channelID, c => [(channelID, c)]
  | (k, v) :: rest, channelID, c =>
    if k == channelID then (k, c) :: rest else (k, v) :: insertConv rest channelID c

/-- getOrCreateConversation embeds
`ConversationManager.GetOrCreateConversation`: it returns the conversation
for the channel together with the updated registry. -/
def getOrCreateConversation (convs : List (String × Conversation)) (channelID : String)
    (now : Nat) : Conversation × List (String × Conversation) :=
  match lookupConv convs channelID with
  | some c => (c, convs)
  | none => (mkConversation channelID now, insertConv convs channelID (mkConversation channelID now))

/-- handleAgentResponse embeds `MessageRouter.HandleAgentResponse` at the
registry level: when the channel has a conversation it decrements pending
and appends the broadcast reply (`To: nil`); otherwise nothing happens. -/
def handleAgentResponse (convs : List (String × Conversation)) (fromA : AgentType)
    (content channelID : String) (now : Nat) : List (String × Conversation) :=
  match lookupConv convs channelID with
  | none => convs
  | some conv =>
    insertConv convs channelID (addMessage
      { id := "resp_" ++ toString now, fromAgent := fromA, toAgents := [], content := content,
        timestamp := 0, isFromHuman := false, metadata := [] } now (decrementPending conv))

/-- RouterState bundles the two stores the `MessageRouter` points at. -/
structure RouterState where
  convs : List (String × Conversation)
  system : ActorSystem
deriving DecidableEq, Repr

/-- RResult is the outcome of a router call: a value, or a propagated Go
runtime panic. -/
inductive RResult (A : Type) where
  | ok (a : A)
  | panicked
deriving DecidableEq, Repr

/-- humanActorMessage is the `ActorMessage` built per target inside
`RouteFromHuman`. -/
def humanActorMessage (t : AgentType) (content channelID senderID : String)
    (now : Nat) : ActorMessage :=
  { id := "msg_" ++ toString now, fromAgent := "", toAgent := t, content := content,
    channelID := channelID, replyTo := "", timestamp := now,
    metadata := [("sender_id", senderID), ("is_human", "true")] }

/-- routeLoop is the per-target loop of `RouteFromHuman`: increment pending,
offer to the target's mailbox, decrement and record the error on failure. -/
def routeLoop (sys : ActorSystem) (conv : Conversation) (targets : List AgentType)
    (content channelID senderID : String) (now : Nat) (errs : List String) :
    RResult (ActorSystem × Conversation × List String) :=
  match targets with
  | [] => RResult.ok (sys, conv, errs)
  | t :: rest =>
    let conv1 := incrementPending conv
    match systemRoute sys (humanActorMessage t content channelID senderID now) with
    | RouteRes.delivered sys' => routeLoop sys' conv1 rest content channelID senderID now errs
    | RouteRes.err e =>
      routeLoop sys (decrementPending conv1) rest content channelID senderID now (errs ++ [e])
    | RouteRes.panicked => RResult.panicked

/-- finishHumanRoute writes the final conversation back into the registry
and packages the result of the routing loop. -/
def finishHumanRoute (convs1 : List (String × Conversation)) (channelID : String)
    (r : RResult (ActorSystem × Conversation × List String)) : RResult (RouterState × List String) :=
  match r with
  | RResult.ok (sys', conv', errs) =>
    let st' : RouterState := { convs := insertConv convs1 channelID conv', system := sys' }
    RResult.ok (st', errs)
  | RResult.panicked => RResult.panicked

/-- routeFromHuman embeds `MessageRouter.RouteFromHuman`: the human entry is
appended with `To = targets` (before the default is applied), empty targets
then default to the coordinator, and each target is routed. -/
def routeFromHuman (st : RouterState) (targets : List AgentType)
    (content channelID senderID : String) (now : Nat) : RResult (RouterState × List String) :=
  let gc := getOrCreateConversation st.convs channelID now
  let conv1 := addMessage
    { id := "human_" ++ toString now, fromAgent := "", toAgents := targets, content := content,
      timestamp := 0, isFromHuman := true, metadata := [("sender_id", senderID)] } now gc.1
  let targets1 := if targets.isEmpty then [AgentMaster] else targets
  finishHumanRoute gc.2 channelID
    (routeLoop st.system conv1 targets1 content channelID senderID now [])

/-- agentActorMessage is the `ActorMessage` built inside `RouteToAgent`. -/
def agentActorMessage (fromA toA : AgentType) (content channelID : String)
    (now : Nat) : ActorMessage :=
  { id := "msg_" ++ toString now, fromAgent := fromA, toAgent := toA, content := content,
    channelID := channelID, replyTo := "", timestamp := now, metadata := [] }

/-- agentConvEntry is the history entry appended by `RouteToAgent` on
success (before `AddMessage` stamps it). -/
def agentConvEntry (fromA toA : AgentType) (content : String) (now : Nat) : ConversationMessage :=
  { id := "msg_" ++ toString now, fromAgent := fromA, toAgents := [toA], content := content,
    timestamp := 0, isFromHuman := false, metadata := [] }

/-- routeToAgent embeds `MessageRouter.RouteToAgent`: increment pending,
offer to the target's mailbox; on failure decrement and return the error,
on success append the persona-to-persona entry. -/
def routeToAgent (st : RouterState) (fromA toA : AgentType) (content channelID : String)
    (now : Nat) : RResult (RouterState × Option String) :=
  let gc := getOrCreateConversation st.convs channelID now
  let conv1 := incrementPending gc.1
  let entry := agentConvEntry fromA toA content now
  match systemRoute st.system (agentActorMessage fromA toA content channelID now) with
  | RouteRes.err e =>
    let st' : RouterState := { convs := insertConv gc.2 channelID (decrementPending conv1), system := st.system }
    RResult.ok (st', some e)
  | RouteRes.delivered sys' =>
    let st' : RouterState := { convs := insertConv gc.2 channelID (addMessage entry now conv1), system := sys' }
    RResult.ok (st', none)
  | RouteRes.panicked => RResult.panicked

/-- eraseTargets blanks the `To` field of a history entry (used to compare
runs modulo the recorded target list). -/
def eraseTargets (m : ConversationMessage) : ConversationMessage :=
  { m with toAgents := [] }

/-- projConv is the observation of a conversation that ignores the recorded
target lists and the active-agent set. -/
def projConv (c : Conversation) : Conversation :=
  { c with messages := c.messages.map eraseTargets, activeAgents := [] }

/-- projConvs applies `projConv` across the registry. -/
def projConvs (l : List (String × Conversation)) : List (String × Conversation) :=
  l.map (fun p => (p.1, projConv p.2))

/-- projLoop applies `projConv` to a `routeLoop` outcome. -/
def projLoop : RResult (ActorSystem × Conversation × List String) →
    RResult (ActorSystem × Conversation × List String)
  | RResult.ok (sys, conv, errs) => RResult.ok (sys, projConv conv, errs)
  | RResult.panicked => RResult.panicked

/-- projRun applies `projConv` to a `routeFromHuman` outcome. -/
def projRun : RResult (RouterState × List String) → RResult (RouterState × List String)
  | RResult.ok (st, errs) =>
    RResult.ok ({ convs := projConvs st.convs, system := st.system }, errs)
  | RResult.panicked => RResult.panicked

/-- runConvTargets extracts, per history entry of the channel's
conversation, the recorded `To` list of that entry. -/
def runConvTargets (r : RResult (RouterState × List String)) (channelID : String) :
    Option (List (List AgentType)) :=
  match r with
  | RResult.ok (st, _) =>
    (lookupConv st.convs channelID).map (fun c => c.messages.map ConversationMessage.toAgents)
  | RResult.panicked => none

/-- mb0 is a fresh open mailbox for `dev` (capacity 5). -/
def mb0 : ActorMailbox := newActorMailbox AgentDev 5

/-- mbStopped0 is `mb0` after one `Stop`. -/
def mbStopped0 : ActorMailbox := { mb0 with cancelled := true, closed := true }

/-- msg0 is a sample actor message. -/
def msg0 : ActorMessage :=
  { id := "m1", fromAgent := "", toAgent := AgentDev, content := "hi", channelID := "chan",
    replyTo := "", timestamp := 0, metadata := [] }

/-- sys1 is a system with the single open mailbox `mb0`. -/
def sys1 : ActorSystem := ActorSystem.mk [(AgentDev, mb0)]

/-- sys1Stopped is `sys1` after one `StopAll`. -/
def sys1Stopped : ActorSystem := ActorSystem.mk [(AgentDev, mbStopped0)]

/-- st0 is a router state with an empty registry and the system `sys1`. -/
def st0 : RouterState := { convs := [], system := sys1 }

/-- sysM is a system with a single open mailbox for the coordinator. -/
def sysM : ActorSystem := ActorSystem.mk [(AgentMaster, newActorMailbox AgentMaster 5)]

/-- stM is a router state with an empty registry and the system `sysM`. -/
def stM : RouterState := { convs := [], system := sysM }

/-- isSpaceChar models the whitespace trimmed by `strings.TrimSpace` on
ASCII text (space, tab, newline, vertical tab, form feed, carriage
return). -/
def isSpaceChar (c : Char) : Bool := c.isWhitespace || decide (c = '\x0b') || decide (c = '\x0c')

/-- trimChars models `strings.TrimSpace` on the character list. -/
def trimChars (cs : List Char) : List Char :=
  ((cs.dropWhile isSpaceChar).reverse.dropWhile isSpaceChar).reverse

/-- lowerList models `strings.ToLower` (ASCII folding). -/
def lowerList (l : List Char) : List Char := l.map Char.toLower

/-- startsSeg tests whether the second list begins with the first. -/
def startsSeg : List Char → List Char → Bool
  | [], _ => true
  | _ :: _, [] => false
  | p :: ps, c :: cs => p == c && startsSeg ps cs

/-- removeAllFuel is `strings.ReplaceAll(s, pat, "")` with explicit fuel
(one unit per consumed character, so `fuel = s.length` suffices); the scan
is left to right over non-overlapping occurrences. -/
def removeAllFuel (pat : List Char) : Nat → List Char → List Char
  | _, [] => []
  | 0, l => l
  | Nat.succ f, c :: rest =>
    if startsSeg pat (c :: rest) then removeAllFuel pat f ((c :: rest).drop pat.length)
    else c :: removeAllFuel pat f rest

/-- removeAll models `strings.ReplaceAll(l, pat, "")` for nonempty `pat`. -/
def removeAll (pat : List Char) (l : List Char) : List Char := removeAllFuel pat l.length l

/-- trimString is `strings.TrimSpace` on strings. -/
def trimString (s : String) : String := String.mk (trimChars s.data)

/-- cleanMentionsFromResponse embeds the reply-side cleaner: for each
persona in roster order the whole intermediate result is lowercased and
every `@persona` substring removed; finally the result is trimmed. -/
def cleanMentionsFromResponse (content : String) : String :=
  trimString (AllAgentTypes.foldl
    (fun r agent => String.mk (removeAll ("@" ++ agent).data (lowerList r.data))) content)

/-- asciiUpper recognises the ASCII uppercase letters. -/
def asciiUpper (c : Char) : Bool := decide (65 ≤ c.toNat) && decide (c.toNat ≤ 90)

lemma convInvariant_mk (channelID : String) (now : Nat) :
    convInvariant (mkConversation channelID now) := by
  refine ⟨?_, ?_, ?_⟩ <;> simp [mkConversation]

lemma convInvariant_add (msg : ConversationMessage) (now : Nat) (c : Conversation)
    (h : convInvariant c) : convInvariant (addMessage msg now c) := by
  obtain ⟨h1, h2, h3⟩ := h
  refine ⟨?_, ?_, h3⟩ <;>
    · simp only [addMessage]
      split <;> simp_all

lemma convInvariant_inc (c : Conversation) (h : convInvariant c) :
    convInvariant (incrementPending c) := by
  obtain ⟨h1, h2, h3⟩ := h
  have hp : (incrementPending c).pendingCount = c.pendingCount + 1 := rfl
  have hs : (incrementPending c).state = ConversationState.processing := rfl
  refine ⟨?_, ?_, ?_⟩
  · rw [hp, hs]
    exact ⟨fun _ => by omega, fun _ => rfl⟩
  · rw [hs]
    intro hcontra
    simp at hcontra
  · rw [hp]
    omega

lemma convInvariant_dec (c : Conversation) (h : convInvariant c) :
    convInvariant (decrementPending c) := by
  obtain ⟨h1, h2, h3⟩ := h
  by_cases hp : 0 < c.pendingCount
  · by_cases hz : c.pendingCount - 1 = 0
    · refine ⟨?_, ?_, ?_⟩
      · simp [decrementPending, hp, hz]
      · simp [decrementPending, hp, hz]
      · simp [decrementPending, hp]
        omega
    · have hproc : c.state = ConversationState.processing := h1.mpr hp
      refine ⟨?_, ?_, ?_⟩
      · simp [decrementPending, hp, hz, hproc]
        omega
      · simp [decrementPending, hp, hz, hproc]
      · simp [decrementPending, hp]
        omega
  · have hz : c.pendingCount = 0 := by omega
    refine ⟨?_, ?_, ?_⟩
    · simp [decrementPending, hz]
    · simp [decrementPending, hz]
    · simp [decrementPending, hz]

/-- Claim C1 (counterexample).  The claim asserts that for conversations
reachable by any sequence of `AddMessage` / `IncrementPending` /
`DecrementPending` / close operations, `state = Processing ⇔ pending > 0`
and `Closed` is terminal.  Both parts fail on the code:
closing while a message is pending leaves `pending = 1 > 0` with
`state = Closed ≠ Processing`, and `IncrementPending` after close moves the
state from `Closed` to `Processing` (the source sets `Processing`
unconditionally). -/
theorem c1_state_pending_counterexample :
    (0 < (applyConvOps (mkConversation "room" 0) [ConvOp.inc 1, ConvOp.close 2]).pendingCount ∧
      (applyConvOps (mkConversation "room" 0) [ConvOp.inc 1, ConvOp.close 2]).state ≠
        ConversationState.processing) ∧
    (applyConvOps (mkConversation "room" 0) [ConvOp.close 1, ConvOp.inc 2]).state ≠
      ConversationState.closed := by
  refine ⟨⟨?_, ?_⟩, ?_⟩ <;> decide

/-- Claim C1 (amended).  For every conversation reachable from a fresh
conversation by a close-free sequence of `AddMessage`, `IncrementPending`
and `DecrementPending`: `state = Processing ⇔ pending > 0` and
`state = Idle ⇒ pending = 0` (and `pending ≥ 0`).  Once `close` is allowed
into the sequence both the equivalence and the terminality of `Closed` can
fail, as the counterexample shows; in the full system a closed conversation
is only protected by being removed from the manager's registry. -/
theorem c1_state_pending_invariant (channelID : String) (now : Nat) (ops : List ConvOp)
    (h : ∀ o ∈ ops, isCloseOp o = false) :
    convInvariant (applyConvOps (mkConversation channelID now) ops) := by
  have step : ∀ (c : Conversation) (o : ConvOp), convInvariant c → isCloseOp o = false →
      convInvariant (applyConvOp c o) := by
    intro c o hc ho
    cases o with
    | add msg n => exact convInvariant_add msg n c hc
    | inc n => exact convInvariant_inc c hc
    | dec n => exact convInvariant_dec c hc
    | close n => simp [isCloseOp] at ho
  have main : ∀ (ops : List ConvOp) (c : Conversation), convInvariant c →
      (∀ o ∈ ops, isCloseOp o = false) → convInvariant (applyConvOps c ops) := by
    intro ops
    induction ops with
    | nil => intro c hc _; exact hc
    | cons o rest ih =>
      intro c hc hops
      have h1 := hops o (by simp)
      have h2 : ∀ o ∈ rest, isCloseOp o = false := fun o ho => hops o (by simp [ho])
      simpa [applyConvOps] using ih (applyConvOp c o) (step c o hc h1) h2
  exact main ops _ (convInvariant_mk channelID now) h

/-- Claim C1 (witness for the amended invariant at a concrete close-free
sequence). -/
theorem c1_state_pending_invariant_witness :
    (∀ o ∈ [ConvOp.inc 1, ConvOp.dec 2], isCloseOp o = false) ∧
      convInvariant (applyConvOps (mkConversation "room" 0) [ConvOp.inc 1, ConvOp.dec 2]) :=
  ⟨by decide, c1_state_pending_invariant "room" 0 [ConvOp.inc 1, ConvOp.dec 2] (by decide)⟩

/-- Claim C6.  Starting from a fresh conversation, any sequence of
operations (in particular any sequence of `IncrementPending` /
`DecrementPending` calls) keeps the pending counter non-negative, and a
`DecrementPending` issued when the counter is zero leaves it at zero. -/
theorem c6_pending_nonneg :
    (∀ (channelID : String) (now : Nat) (ops : List ConvOp),
        0 ≤ (applyConvOps (mkConversation channelID now) ops).pendingCount) ∧
      (∀ c : Conversation, c.pendingCount = 0 → (decrementPending c).pendingCount = 0) := by
  constructor
  · intro channelID now ops
    have main : ∀ (ops : List ConvOp) (c : Conversation), 0 ≤ c.pendingCount →
        0 ≤ (applyConvOps c ops).pendingCount := by
      intro ops
      induction ops with
      | nil => intro c hc; exact hc
      | cons o rest ih =>
        intro c hc
        have hstep : 0 ≤ (applyConvOp c o).pendingCount := by
          cases o <;>
            simp only [applyConvOp, addMessage, incrementPending, decrementPending,
              closeConversation] <;>
            first
              | omega
              | (split <;> omega)
        simpa [applyConvOps] using ih (applyConvOp c o) hstep
    exact main ops _ (by simp [mkConversation])
  · intro c hc
    simp [decrementPending, hc]

/-- Claim C6 (witness at a concrete sequence and conversation). -/
theorem c6_pending_nonneg_witness :
    0 ≤ (applyConvOps (mkConversation "room" 0) [ConvOp.dec 1, ConvOp.dec 2]).pendingCount ∧
      (mkConversation "room" 0).pendingCount = 0 ∧
      (decrementPending (mkConversation "room" 0)).pendingCount = 0 :=
  ⟨c6_pending_nonneg.1 "room" 0 [ConvOp.dec 1, ConvOp.dec 2], by decide,
    c6_pending_nonneg.2 (mkConversation "room" 0) (by decide)⟩

/-- Claim C9 (counterexample).  The claim asserts that `lastActivity` is set
to the current time by every pending change.  In the source neither
`IncrementPending` nor `DecrementPending` touches `LastActivity`: an
increment at time 5 on a conversation created at time 0 changes the counter
but leaves `lastActivity = 0 ≠ 5`. -/
theorem c9_lastActivity_counterexample :
    (applyConvOp (mkConversation "room" 0) (ConvOp.inc 5)).pendingCount ≠
        (mkConversation "room" 0).pendingCount ∧
      (applyConvOp (mkConversation "room" 0) (ConvOp.inc 5)).lastActivity = 0 ∧
      (applyConvOp (mkConversation "room" 0) (ConvOp.inc 5)).lastActivity ≠ 5 := by
  refine ⟨?_, ?_, ?_⟩ <;> decide

/-- Claim C9 (amended).  `lastActivity` is set to the current time by every
history append (`AddMessage`), but `IncrementPending` and
`DecrementPending` leave it unchanged. -/
theorem c9_lastActivity_update (c : Conversation) (msg : ConversationMessage) (now : Nat) :
    (addMessage msg now c).lastActivity = now ∧
      (incrementPending c).lastActivity = c.lastActivity ∧
      (decrementPending c).lastActivity = c.lastActivity :=
  ⟨rfl, rfl, rfl⟩

lemma mailboxStop_ok_closed (mb mb' : ActorMailbox) (h : mailboxStop mb = StopOutcome.ok mb') :
    mb'.closed = true := by
  by_cases hc : mb.closed
  · simp [mailboxStop, hc] at h
  · simp [mailboxStop, hc] at h
    rw [← h]

/-- Claim C4 (code bug).  The claim (and the spec) says that every `Send`
after `Stop` fails by returning an error and never crashes.  In the source
`Stop` closes the Go channel, and the `select` in `Send` then executes a
send on a closed channel, which is a runtime panic — `Send` neither
succeeds nor returns an error. -/
theorem c4_send_after_stop_panics (mb : ActorMailbox) (msg : ActorMessage)
    (h : mb.closed = false) :
    ∃ mb', mailboxStop mb = StopOutcome.ok mb' ∧ mailboxSend mb' msg = SendOutcome.panicked := by
  refine ⟨{ mb with cancelled := true, closed := true }, ?_, ?_⟩
  · simp [mailboxStop, h]
  · simp [mailboxSend]

/-- Claim C4 (witness at a concrete mailbox and message). -/
theorem c4_send_after_stop_panics_witness :
    mb0.closed = false ∧
      ∃ mb', mailboxStop mb0 = StopOutcome.ok mb' ∧ mailboxSend mb' msg0 = SendOutcome.panicked :=
  ⟨by decide, c4_send_after_stop_panics mb0 msg0 (by decide)⟩

/-- Claim C8 (code bug).  The claim says stopping is idempotent.  In the
source a second `Stop` calls `close` on an already-closed channel, a
runtime panic; consequently a second `StopAll` on a system with at least
one mailbox panics as well. -/
theorem c8_second_stop_panics :
    (∀ mb mb', mailboxStop mb = StopOutcome.ok mb' → mailboxStop mb' = StopOutcome.panicked) ∧
      ∀ s s', systemStopAll s = some s' → s.mailboxes ≠ [] → systemStopAll s' = none := by
  constructor
  · intro mb mb' h
    simp [mailboxStop, mailboxStop_ok_closed mb mb' h]
  · intro s s' h hne
    obtain ⟨l0, hl, hmk⟩ : ∃ l0, stopAllAux s.mailboxes = some l0 ∧ ActorSystem.mk l0 = s' := by
      cases hh : stopAllAux s.mailboxes with
      | none => simp [systemStopAll, hh] at h
      | some l0 =>
        simp [systemStopAll, hh] at h
        exact ⟨l0, rfl, h⟩
    cases hm : s.mailboxes with
    | nil => exact absurd hm hne
    | cons p rest =>
      obtain ⟨a, mb⟩ := p
      rw [hm] at hl
      cases hs : mailboxStop mb with
      | panicked => simp [stopAllAux, hs] at hl
      | ok mb' =>
        simp only [stopAllAux, hs] at hl
        obtain ⟨rest', hrest, hl0⟩ : ∃ rest', stopAllAux rest = some rest' ∧
            (a, mb') :: rest' = l0 := by
          cases hr : stopAllAux rest with
          | none => simp [hr] at hl
          | some rest' =>
            simp [hr] at hl
            exact ⟨rest', rfl, hl⟩
        rw [← hmk, ← hl0]
        simp [systemStopAll, stopAllAux, mailboxStop, mailboxStop_ok_closed mb mb' hs]

/-- Claim C8 (witness: one concrete stop works, the second panics; same for
`StopAll`). -/
theorem c8_second_stop_panics_witness :
    mailboxStop mb0 = StopOutcome.ok mbStopped0 ∧
      mailboxStop mbStopped0 = StopOutcome.panicked ∧
      systemStopAll sys1 = some sys1Stopped ∧
      sys1.mailboxes ≠ [] ∧
      systemStopAll sys1Stopped = none :=
  ⟨by decide, c8_second_stop_panics.1 mb0 mbStopped0 (by decide), by decide, by decide,
    c8_second_stop_panics.2 sys1 sys1Stopped (by decide) (by decide)⟩

/-- Claim C10.  `HandleAgentResponse` for a room with no conversation in
the registry (it uses `GetConversation`, which does not create) is a
complete no-op: the registry — and hence every pending counter and every
history — is returned unchanged. -/
theorem c10_unknown_room_noop (convs : List (String × Conversation)) (fromA : AgentType)
    (content channelID : String) (now : Nat) (h : lookupConv convs channelID = none) :
    handleAgentResponse convs fromA content channelID now = convs := by
  simp [handleAgentResponse, h]

/-- Claim C10 (witness on the empty registry). -/
theorem c10_unknown_room_noop_witness :
    lookupConv ([] : List (String × Conversation)) "chan" = none ∧
      handleAgentResponse [] AgentDev "done" "chan" 3 = [] :=
  ⟨rfl, c10_unknown_room_noop [] AgentDev "done" "chan" 3 rfl⟩

lemma lookupConv_insertConv (l : List (String × Conversation)) (channelID : String)
    (c : Conversation) : lookupConv (insertConv l channelID c) channelID = some c := by
  induction l with
  | nil => simp [insertConv, lookupConv]
  | cons p rest ih =>
    obtain ⟨k, v⟩ := p
    by_cases hk : k = channelID
    · simp [insertConv, lookupConv, hk]
    · simp [insertConv, lookupConv, hk, ih]

lemma lookupMailbox_open (s : ActorSystem) (a : AgentType) (mb : ActorMailbox)
    (hopen : mailboxesOpen s = true) (h : lookupMailbox s a = some mb) : mb.closed = false := by
  unfold lookupMailbox at h
  obtain ⟨p, hp, hpe⟩ : ∃ p, s.mailboxes.find? (fun q => q.1 == a) = some p ∧ p.2 = mb := by
    cases hf : s.mailboxes.find? (fun q => q.1 == a) with
    | none => simp [hf] at h
    | some p =>
      simp [hf] at h
      exact ⟨p, rfl, h⟩
  have hmem : p ∈ s.mailboxes := List.mem_of_find?_eq_some hp
  have hall := List.all_eq_true.mp hopen p hmem
  rw [← hpe]
  simpa using hall

lemma mailboxSend_ok_inv (mb : ActorMailbox) (msg : ActorMessage) (mb' : ActorMailbox)
    (h : mailboxSend mb msg = SendOutcome.ok mb') :
    mb.closed = false ∧ (mb.queue.length : Int) < mb.capacity := by
  by_cases hc : mb.closed
  · simp [mailboxSend, hc] at h
  · by_cases hl : (mb.queue.length : Int) < mb.capacity
    · exact ⟨by simpa using hc, hl⟩
    · simp [mailboxSend, hc, hl] at h

lemma mailboxSend_full_inv (mb : ActorMailbox) (msg : ActorMessage) (e : String)
    (h : mailboxSend mb msg = SendOutcome.fullErr e) :
    mb.closed = false ∧ ¬(mb.queue.length : Int) < mb.capacity := by
  by_cases hc : mb.closed
  · simp [mailboxSend, hc] at h
  · by_cases hl : (mb.queue.length : Int) < mb.capacity
    · simp [mailboxSend, hc, hl] at h
    · exact ⟨by simpa using hc, hl⟩

lemma systemRoute_err_inv (s : ActorSystem) (msg : ActorMessage) (e : String)
    (h : systemRoute s msg = RouteRes.err e) : routeErrWould s msg.toAgent = true := by
  cases hf : lookupMailbox s msg.toAgent with
  | none => simp [routeErrWould, hf]
  | some mb =>
    simp only [systemRoute, hf] at h
    cases hsend : mailboxSend mb msg with
    | ok mb' => simp [hsend] at h
    | fullErr e' =>
      have := mailboxSend_full_inv mb msg e' hsend
      simp [routeErrWould, hf, this.2]
    | panicked => simp [hsend] at h

lemma systemRoute_delivered_inv (s : ActorSystem) (msg : ActorMessage) (sys' : ActorSystem)
    (h : systemRoute s msg = RouteRes.delivered sys') : routeErrWould s msg.toAgent = false := by
  cases hf : lookupMailbox s msg.toAgent with
  | none => simp [systemRoute, hf] at h
  | some mb =>
    simp only [systemRoute, hf] at h
    cases hsend : mailboxSend mb msg with
    | ok mb' =>
      have := mailboxSend_ok_inv mb msg mb' hsend
      simp [routeErrWould, hf, this.2]
    | fullErr e' => simp [hsend] at h
    | panicked => simp [hsend] at h

lemma systemRoute_panicked_inv (s : ActorSystem) (msg : ActorMessage)
    (h : systemRoute s msg = RouteRes.panicked) :
    ∃ mb, lookupMailbox s msg.toAgent = some mb ∧ mb.closed = true := by
  cases hf : lookupMailbox s msg.toAgent with
  | none => simp [systemRoute, hf] at h
  | some mb =>
    simp only [systemRoute, hf] at h
    cases hsend : mailboxSend mb msg with
    | ok mb' => simp [hsend] at h
    | fullErr e' => simp [hsend] at h
    | panicked =>
      refine ⟨mb, rfl, ?_⟩
      by_cases hc : mb.closed
      · exact hc
      · by_cases hl : (mb.queue.length : Int) < mb.capacity <;> simp [mailboxSend, hc, hl] at hsend

/-- Claim C3.  Under the running-system assumptions (no mailbox stopped,
pending counter of the room non-negative), `RouteToAgent` returns an error
exactly when the target is not registered or its mailbox is full; on error
the conversation's pending counter and history equal their values at the
start of the call (the increment is undone, nothing is appended, and the
actor system is untouched); on success the pending counter grows by exactly
one and exactly one `ConversationMessage{from, to=[to], isHuman=false}` is
appended. -/
theorem c3_route_to_agent (st : RouterState) (fromA toA : AgentType)
    (content channelID : String) (now : Nat)
    (hopen : mailboxesOpen st.system = true)
    (hp : 0 ≤ (getOrCreateConversation st.convs channelID now).1.pendingCount) :
    ∃ (st' : RouterState) (res : Option String) (c' : Conversation),
      routeToAgent st fromA toA content channelID now = RResult.ok (st', res) ∧
      lookupConv st'.convs channelID = some c' ∧
      res.isSome = routeErrWould st.system toA ∧
      (res.isSome = true →
        c'.pendingCount = (getOrCreateConversation st.convs channelID now).1.pendingCount ∧
        c'.messages = (getOrCreateConversation st.convs channelID now).1.messages ∧
        st'.system = st.system) ∧
      (res = none →
        c'.pendingCount = (getOrCreateConversation st.convs channelID now).1.pendingCount + 1 ∧
        c'.messages = (getOrCreateConversation st.convs channelID now).1.messages ++
          [{ agentConvEntry fromA toA content now with timestamp := now }]) := by
  cases hr : systemRoute st.system (agentActorMessage fromA toA content channelID now) with
  | delivered sys' =>
    refine ⟨{ convs := insertConv (getOrCreateConversation st.convs channelID now).2 channelID (addMessage (agentConvEntry fromA toA content now) now (incrementPending (getOrCreateConversation st.convs channelID now).1)), system := sys' }, none, addMessage (agentConvEntry fromA toA content now) now (incrementPending (getOrCreateConversation st.convs channelID now).1), ?_, ?_, ?_, ?_, ?_⟩
    · simp only [routeToAgent, hr]
    · exact lookupConv_insertConv _ _ _
    · have := systemRoute_delivered_inv _ _ _ hr
      simp only [agentActorMessage] at this
      simp [this]
    · intro hcontra
      simp at hcontra
    · intro _
      constructor
      · simp [addMessage, incrementPending]
      · simp [addMessage, incrementPending, agentConvEntry]
  | err e =>
    refine ⟨{ convs := insertConv (getOrCreateConversation st.convs channelID now).2 channelID (decrementPending (incrementPending (getOrCreateConversation st.convs channelID now).1)), system := st.system }, some e, decrementPending (incrementPending (getOrCreateConversation st.convs channelID now).1), ?_, ?_, ?_, ?_, ?_⟩
    · simp only [routeToAgent, hr]
    · exact lookupConv_insertConv _ _ _
    · have := systemRoute_err_inv _ _ _ hr
      simp only [agentActorMessage] at this
      simp [this]
    · intro _
      refine ⟨?_, ?_, rfl⟩
      · have h1 : 0 < (getOrCreateConversation st.convs channelID now).1.pendingCount + 1 := by
          omega
        simp [decrementPending, incrementPending, h1]
      · simp [decrementPending, incrementPending]
    · intro hcontra
      simp at hcontra
  | panicked =>
    obtain ⟨mb, hmb, hclosed⟩ := systemRoute_panicked_inv _ _ hr
    have := lookupMailbox_open st.system _ mb hopen hmb
    rw [this] at hclosed
    cases hclosed

/-- Claim C3 (witness: concrete successful route into an open, non-full
mailbox). -/
theorem c3_route_to_agent_witness :
    mailboxesOpen st0.system = true ∧
      0 ≤ (getOrCreateConversation st0.convs "chan" 3).1.pendingCount ∧
      ∃ (st' : RouterState) (res : Option String) (c' : Conversation),
        routeToAgent st0 AgentQA AgentDev "hi" "chan" 3 = RResult.ok (st', res) ∧
        lookupConv st'.convs "chan" = some c' ∧
        res.isSome = routeErrWould st0.system AgentDev ∧
        (res.isSome = true →
          c'.pendingCount = (getOrCreateConversation st0.convs "chan" 3).1.pendingCount ∧
          c'.messages = (getOrCreateConversation st0.convs "chan" 3).1.messages ∧
          st'.system = st0.system) ∧
        (res = none →
          c'.pendingCount = (getOrCreateConversation st0.convs "chan" 3).1.pendingCount + 1 ∧
          c'.messages = (getOrCreateConversation st0.convs "chan" 3).1.messages ++
            [{ agentConvEntry AgentQA AgentDev "hi" 3 with timestamp := 3 }]) :=
  ⟨by decide, by decide, c3_route_to_agent st0 AgentQA AgentDev "hi" "chan" 3 (by decide) (by decide)⟩

lemma projConv_inc (c1 c2 : Conversation) (h : projConv c1 = projConv c2) :
    projConv (incrementPending c1) = projConv (incrementPending c2) := by
  obtain ⟨i1, ch1, s1, p1, ms1, ag1, cr1, la1⟩ := c1
  obtain ⟨i2, ch2, s2, p2, ms2, ag2, cr2, la2⟩ := c2
  simp only [projConv, Conversation.mk.injEq, and_true, true_and] at h
  obtain ⟨hi, hch, hs, hpp, hms, hcr, hla⟩ := h
  subst hi; subst hch; subst hs; subst hpp; subst hcr; subst hla
  simp [projConv, incrementPending, Conversation.mk.injEq, hms]

lemma projConv_dec (c1 c2 : Conversation) (h : projConv c1 = projConv c2) :
    projConv (decrementPending c1) = projConv (decrementPending c2) := by
  obtain ⟨i1, ch1, s1, p1, ms1, ag1, cr1, la1⟩ := c1
  obtain ⟨i2, ch2, s2, p2, ms2, ag2, cr2, la2⟩ := c2
  simp only [projConv, Conversation.mk.injEq, and_true, true_and] at h
  obtain ⟨hi, hch, hs, hpp, hms, hcr, hla⟩ := h
  subst hi; subst hch; subst hs; subst hpp; subst hcr; subst hla
  simp [projConv, decrementPending, Conversation.mk.injEq, hms]

lemma projConv_addMessage (c1 c2 : Conversation) (m1 m2 : ConversationMessage) (now : Nat)
    (hc : projConv c1 = projConv c2) (hm : eraseTargets m1 = eraseTargets m2) :
    projConv (addMessage m1 now c1) = projConv (addMessage m2 now c2) := by
  obtain ⟨i1, ch1, s1, p1, ms1, ag1, cr1, la1⟩ := c1
  obtain ⟨i2, ch2, s2, p2, ms2, ag2, cr2, la2⟩ := c2
  obtain ⟨mi1, mf1, mt1, mc1, mts1, mh1, mm1⟩ := m1
  obtain ⟨mi2, mf2, mt2, mc2, mts2, mh2, mm2⟩ := m2
  simp only [projConv, eraseTargets, Conversation.mk.injEq, ConversationMessage.mk.injEq,
    and_true, true_and] at hc hm
  obtain ⟨hi, hch, hs, hpp, hms, hcr, hla⟩ := hc
  obtain ⟨hmi, hmf, hmc, hmts, hmh, hmm⟩ := hm
  subst hi; subst hch; subst hs; subst hpp; subst hcr; subst hla
  subst hmi; subst hmf; subst hmc; subst hmts; subst hmh; subst hmm
  simp [projConv, addMessage, eraseTargets, Conversation.mk.injEq, hms]

lemma projConvs_insertConv (l : List (String × Conversation)) (channelID : String)
    (a b : Conversation) (h : projConv a = projConv b) :
    projConvs (insertConv l channelID a) = projConvs (insertConv l channelID b) := by
  induction l with
  | nil => simp [insertConv, projConvs, h]
  | cons p rest ih =>
    obtain ⟨k, v⟩ := p
    by_cases hk : k = channelID
    · simp [insertConv, projConvs, hk, h]
    · simp only [insertConv, projConvs] at ih ⊢
      simp [hk, ih]

lemma routeLoop_proj (targets : List AgentType) (sys : ActorSystem) (c1 c2 : Conversation)
    (content channelID senderID : String) (now : Nat) (errs : List String)
    (h : projConv c1 = projConv c2) :
    projLoop (routeLoop sys c1 targets content channelID senderID now errs) =
      projLoop (routeLoop sys c2 targets content channelID senderID now errs) := by
  induction targets generalizing sys c1 c2 errs with
  | nil => simp [routeLoop, projLoop, h]
  | cons t rest ih =>
    simp only [routeLoop]
    cases hr : systemRoute sys (humanActorMessage t content channelID senderID now) with
    | delivered sys' => exact ih sys' _ _ errs (projConv_inc c1 c2 h)
    | err e => exact ih sys _ _ (errs ++ [e]) (projConv_dec _ _ (projConv_inc c1 c2 h))
    | panicked => rfl

lemma finishHumanRoute_proj (convs1 : List (String × Conversation)) (channelID : String)
    (r1 r2 : RResult (ActorSystem × Conversation × List String))
    (h : projLoop r1 = projLoop r2) :
    projRun (finishHumanRoute convs1 channelID r1) =
      projRun (finishHumanRoute convs1 channelID r2) := by
  cases r1 with
  | ok a =>
    obtain ⟨s1, c1, e1⟩ := a
    cases r2 with
    | ok b =>
      obtain ⟨s2, c2, e2⟩ := b
      simp only [projLoop, RResult.ok.injEq, Prod.mk.injEq] at h
      obtain ⟨hs, hc, he⟩ := h
      subst hs; subst he
      simp only [finishHumanRoute, projRun]
      rw [projConvs_insertConv convs1 channelID c1 c2 hc]
    | panicked => simp [projLoop] at h
  | panicked =>
    cases r2 with
    | ok b =>
      obtain ⟨s2, c2, e2⟩ := b
      simp [projLoop] at h
    | panicked => rfl

/-- Claim C2 (counterexample).  The claim asserts that `routeFromHuman`
with empty targets is behaviourally identical to targeting `[master]`,
including the appended history entry's `to` field.  In the source the
human entry is appended with `To = targets` before the empty list defaults
to `[master]`, so the recorded entry differs: `to = []` versus
`to = [master]` (and hence the runs are not equal). -/
theorem c2_empty_targets_counterexample :
    runConvTargets (routeFromHuman stM [] "status?" "chan" "user" 7) "chan" = some [[]] ∧
      runConvTargets (routeFromHuman stM [AgentMaster] "status?" "chan" "user" 7) "chan" =
        some [[AgentMaster]] ∧
      routeFromHuman stM [] "status?" "chan" "user" 7 ≠
        routeFromHuman stM [AgentMaster] "status?" "chan" "user" 7 := by
  refine ⟨?_, ?_, ?_⟩ <;> decide

/-- Claim C2 (amended).  `routeFromHuman(targets=[], …)` and
`routeFromHuman(targets=[master], …)` agree on everything except the
bookkeeping of the recorded target list: the mailbox enqueues, the pending
counter, the returned errors, the conversation state and the history agree
once each history entry's `to` field and the `activeAgents` set are
disregarded (`projRun` erases exactly those two). -/
theorem c2_empty_targets_equiv (st : RouterState) (content channelID senderID : String)
    (now : Nat) :
    projRun (routeFromHuman st [] content channelID senderID now) =
      projRun (routeFromHuman st [AgentMaster] content channelID senderID now) := by
  have hconv : projConv (addMessage
      { id := "human_" ++ toString now, fromAgent := "", toAgents := ([] : List AgentType),
        content := content, timestamp := 0, isFromHuman := true,
        metadata := [("sender_id", senderID)] } now
        (getOrCreateConversation st.convs channelID now).1) =
      projConv (addMessage
      { id := "human_" ++ toString now, fromAgent := "", toAgents := [AgentMaster],
        content := content, timestamp := 0, isFromHuman := true,
        metadata := [("sender_id", senderID)] } now
        (getOrCreateConversation st.convs channelID now).1) :=
    projConv_addMessage _ _ _ _ now rfl rfl
  exact finishHumanRoute_proj _ _ _ _
    (routeLoop_proj [AgentMaster] st.system _ _ content channelID senderID now [] hconv)

lemma charOfNat_toNat (m : Nat) (h1 : 97 ≤ m) (h2 : m ≤ 122) : (Char.ofNat m).toNat = m := by
  have hv : m.isValidChar := by
    left
    omega
  simp [Char.ofNat, Char.ofNatAux, hv, Char.toNat, UInt32.toNat, BitVec.toNat_ofNatLt]

lemma toLower_not_asciiUpper (c : Char) : asciiUpper c.toLower = false := by
  simp only [Char.toLower, asciiUpper]
  split
  next hc =>
    have hh := charOfNat_toNat (Char.toNat c + 32) (by omega) (by omega)
    rw [hh]
    simp
    omega
  next hc =>
    simp
    omega

lemma removeAllFuel_mem (pat : List Char) : ∀ (f : Nat) (l : List Char) (x : Char),
    x ∈ removeAllFuel pat f l → x ∈ l := by
  intro f
  induction f with
  | zero =>
    intro l x h
    cases l with
    | nil => simpa [removeAllFuel] using h
    | cons c rest => simpa [removeAllFuel] using h
  | succ f ih =>
    intro l x h
    cases l with
    | nil => simpa [removeAllFuel] using h
    | cons c rest =>
      simp only [removeAllFuel] at h
      by_cases hs : startsSeg pat (c :: rest) = true
      · rw [if_pos hs] at h
        exact List.mem_of_mem_drop (ih _ x h)
      · rw [if_neg hs] at h
        rcases List.mem_cons.mp h with h1 | h1
        · simp [h1]
        · simp [ih rest x h1]

lemma lowerList_not_upper (l : List Char) (x : Char) (h : x ∈ lowerList l) :
    asciiUpper x = false := by
  simp only [lowerList, List.mem_map] at h
  obtain ⟨y, _, hy⟩ := h
  rw [← hy]
  exact toLower_not_asciiUpper y

lemma trimChars_mem (cs : List Char) (x : Char) (h : x ∈ trimChars cs) : x ∈ cs := by
  simp only [trimChars, List.mem_reverse] at h
  have h1 : x ∈ (cs.dropWhile isSpaceChar).reverse :=
    (List.dropWhile_suffix isSpaceChar).subset h
  rw [List.mem_reverse] at h1
  exact (List.dropWhile_suffix isSpaceChar).subset h1

lemma cleanFold_not_upper : ∀ (l : List String) (r : String), l ≠ [] →
    ∀ x ∈ (l.foldl (fun r agent =>
      String.mk (removeAll ("@" ++ agent).data (lowerList r.data))) r).data,
    asciiUpper x = false := by
  intro l
  induction l with
  | nil => intro r h; cases h rfl
  | cons a as ih =>
    intro r _ x hx
    cases as with
    | nil =>
      simp only [List.foldl] at hx
      have hx2 : x ∈ removeAll ("@" ++ a).data (lowerList r.data) := hx
      exact lowerList_not_upper _ x (removeAllFuel_mem _ _ _ x hx2)
    | cons b bs =>
      exact ih _ (by simp) x (by simpa [List.foldl] using hx)

set_option maxHeartbeats 2000000 in
/-- Claim C7 (counterexample).  The claim says the content routed to each
mentioned persona equals the original reply with only the mention tokens
removed and whitespace trimmed, letter case preserved, so dev's reply
`@qa PR ready` routes `PR ready`.  In the source
`cleanMentionsFromResponse` lowercases the whole reply on each removal
pass (`strings.ReplaceAll(strings.ToLower(result), …)`), so the routed
content is `pr ready`, not `PR ready`. -/
theorem c7_case_counterexample :
    cleanMentionsFromResponse "@qa PR ready" = "pr ready" ∧
      cleanMentionsFromResponse "@qa PR ready" ≠ "PR ready" := by
  refine ⟨?_, ?_⟩ <;> decide

set_option maxHeartbeats 2000000 in
/-- Claim C7 (amended).  The content passed to `RouteToAgent` for each
mentioned persona is the lowercased reply with every `@persona` substring
removed and the result trimmed: letter case is not preserved — the cleaned
reply never contains an ASCII uppercase letter, and `@qa PR ready` routes
`pr ready`. -/
theorem c7_routed_content_lowercased :
    cleanMentionsFromResponse "@qa PR ready" = "pr ready" ∧
      ∀ content : String,
        ((cleanMentionsFromResponse content).data.all (fun x => !asciiUpper x)) = true := by
  constructor
  · decide
  · intro content
    rw [List.all_eq_true]
    intro x hx
    have hx2 := trimChars_mem _ x hx
    have := cleanFold_not_upper AllAgentTypes content (by decide) x hx2
    simp [this]
